import Mathlib

/-!
Verification development for the EGA internal maintenance-check tool.

The engine under study is the maintenance-check scheduling and
delayed-detection core: the ISO-week arithmetic (`getWeekNumber` on the
server and its two client copies), the check lifecycle routes
(`POST /weekly-plans`, `PUT /checks/:checkId/complete`,
`GET /delayed-checks`) built on the key-value store, the client-side
overdue classification (`getDaysOverdue`, severity grouping), and the
key-value helper module (`kv_store.ts`).

Dates are modelled as integer day numbers (days since 1970-01-01, the
JavaScript epoch), with the standard proleptic-Gregorian conversion
(the same calendar JavaScript `Date` uses).  An instant is an integer
count of milliseconds since the epoch; the calendar date a JavaScript
`Date` accessor reports depends on the local timezone offset, which we
model explicitly in `localDay`.  Division `/` and `%` on `Int` below
are euclidean and all divisors are positive, so they agree with
JavaScript's `Math.floor` based day arithmetic.
-/

namespace EGA

/-- Day number (days since 1970-01-01) of a proleptic-Gregorian calendar
date, Hinnant's `days_from_civil` algorithm.  Matches JavaScript `Date`
for in-range dates. -/
def daysFromCivil (y m d : Int) : Int :=
  let y' := if m ≤ 2 then y - 1 else y
  let era := y' / 400
  let yoe := y' - era * 400
  let doy := (153 * (if m > 2 then m - 3 else m + 9) + 2) / 5 + d - 1
  let doe := yoe * 365 + yoe / 4 - yoe / 100 + doy
  era * 146097 + doe - 719468

/-- Inverse conversion: calendar date (year, month, day) of a day
number, Hinnant's `civil_from_days` algorithm. -/
def civilFromDays (z : Int) : Int × Int × Int :=
  let z' := z + 719468
  let era := z' / 146097
  let doe := z' - era * 146097
  let yoe := (doe - doe / 1460 + doe / 36524 - doe / 146096) / 365
  let y := yoe + era * 400
  let doy := doe - (365 * yoe + yoe / 4 - yoe / 100)
  let mp := (5 * doy + 2) / 153
  let d := doy - (153 * mp + 2) / 5 + 1
  let m := if mp < 10 then mp + 3 else mp - 9
  (if m ≤ 2 then y + 1 else y, m, d)

/-- `Date.prototype.getFullYear` of a date given by its day number. -/
def yearOfDay (z : Int) : Int := (civilFromDays z).1

/-- `Date.prototype.getDay` (0 = Sunday … 6 = Saturday) of a day
number; 1970-01-01 was a Thursday (4). -/
def jsDay (z : Int) : Int := (z + 4) % 7

/-- Server week-number function (index.tsx `getWeekNumber`): normalise
to midnight, shift to the Thursday of the date's Monday-based week,
then `1 + Math.round(((t - Jan4) / 86400000 - 3 + dow0(Jan4)) / 7)`
where `Jan4` is January 4 of the shifted date's year and `dow0` is the
Monday-based day of week.  `Math.round (n / 7)` for integer `n` is
`⌊(2*n + 7) / 14⌋`.  The function reads the calendar date through
local-time accessors, so its argument here is the local calendar day
number of the instant it is applied to. -/
def getWeekNumber (t : Int) : Int :=
  let t2 := t + 3 - (jsDay t + 6) % 7
  let week1 := daysFromCivil (yearOfDay t2) 1 4
  1 + (2 * (t2 - week1 - 3 + (jsDay week1 + 6) % 7) + 7) / 14

/-- Client week-number function (DelayedDevices.tsx `getWeekNumber`):
rebuild the date at UTC midnight from its (local) calendar components,
shift to the Thursday of its Monday-based week (`getUTCDay() || 7`),
then `Math.ceil(((t - Jan1) / 86400000 + 1) / 7)` with `Jan1` January 1
of the shifted date's year.  `Math.ceil (n / 7)` for integer `n` is
`⌊(n + 6) / 7⌋`. -/
def getWeekNumberClient (t : Int) : Int :=
  let dayNum := if jsDay t = 0 then 7 else jsDay t
  let t2 := t + 4 - dayNum
  let yearStart := daysFromCivil (yearOfDay t2) 1 1
  (t2 - yearStart + 1 + 6) / 7

/-- Second client copy (DeviceChecks component, `getWeekNumber`):
textually identical to the DelayedDevices copy. -/
def getWeekNumberDeviceChecks (t : Int) : Int :=
  let dayNum := if jsDay t = 0 then 7 else jsDay t
  let t2 := t + 4 - dayNum
  let yearStart := daysFromCivil (yearOfDay t2) 1 1
  (t2 - yearStart + 1 + 6) / 7

/-- Local calendar day number of an instant (milliseconds since epoch)
under a fixed timezone offset in minutes: the day the local-time
accessors (`getFullYear`, `getDate`, `getDay`, `setHours(0,0,0,0)`)
operate on. -/
def localDay (ms offsetMinutes : Int) : Int :=
  (ms + offsetMinutes * 60000) / 86400000

/-- Modelled from the spec (§4.2), for refinement comparison only: the
ISO-8601 `weekOf(date) -> (year, week)` pair, where the year component
is the ISO week-year (the year of the Thursday of the date's week) and
the week is the Monday-aligned week count from the week containing
January 4 of that year (the spec's `1 + floor((shifted - Jan4)/7)`
aligned to week boundaries, per its stated ISO-8601 semantics). -/
def specWeekOf (t : Int) : Int × Int :=
  let t2 := t + 3 - (jsDay t + 6) % 7
  let y := yearOfDay t2
  let week1 := daysFromCivil y 1 4
  let monday1 := week1 - (jsDay week1 + 6) % 7
  (y, 1 + (t2 - monday1) / 7)

/-- The (year, week) pair the code actually associates with a date:
`date.getFullYear()` paired with `getWeekNumber(date)` — the pairing
used at every call site (the completion route and the delayed-check
scan). -/
def codeWeekPair (t : Int) : Int × Int := (yearOfDay t, getWeekNumber t)

/-!
## Domain model

All domain entities live in one key-value table.  Keys are strings of
the shapes `device:<stamp>:<rand>`, `check:<year>:<week>:<deviceId>`
and `plan:<year>:<week>`; since year and week are rendered from
numbers (colon-free) the string form is injective on these shapes, so
we model keys as an inductive type.  A device's `id` field is the full
key string itself (`device:…`), and checks store that full string in
`deviceId`; `Key.device s` stands for the key string `s`.
-/

/-- A device record (POST /devices plus the denormalised
`lastCheckedAt`/`lastCheckedBy` fields written on completion). -/
structure Device where
  id : String
  name : String
  identificationNumber : String
  location : String
  plannedFrequency : Nat
  planComment : String
  status : String
  createdAt : String
  lastCheckedAt : Option String
  lastCheckedBy : Option String
  deriving Repr, DecidableEq

/-- Keys of the key-value table, by namespace shape. -/
inductive Key where
  | device (id : String)
  | check (year week : Int) (deviceId : String)
  | plan (year week : Int)
  deriving Repr, DecidableEq

/-- A device check.  `week`/`year` are written as decimal strings and
read back with `parseInt`; we model them by their numeric value. -/
structure Check where
  id : Key
  deviceId : String
  week : Int
  year : Int
  status : String
  assignedAt : String
  assignedBy : String
  completedAt : Option String
  completedBy : Option String
  comment : Option String
  deriving Repr, DecidableEq

/-- A weekly plan record (POST /weekly-plans). -/
structure Plan where
  id : Key
  week : Int
  year : Int
  deviceIds : List String
  assignedBy : String
  createdAt : String
  status : String
  deriving Repr, DecidableEq

/-- A value stored in the key-value table. -/
inductive Entity where
  | device (d : Device)
  | check (c : Check)
  | plan (p : Plan)
  deriving Repr, DecidableEq

/-- The key-value table: an association list keyed by `Key` (the
underlying table has `key` as primary key, so reachable stores have
no duplicate keys). -/
abbrev Store := List (Key × Entity)

/-- `kv.get`: value at a key, if present. -/
def kvGet : Store → Key → Option Entity
  | [], _ => none
  | p :: rest, k => if p.1 = k then some p.2 else kvGet rest k

/-- `kv.set`: upsert on the primary key — replace the value at the key
if present, otherwise insert a new row. -/
def kvSet : Store → Key → Entity → Store
  | [], k, v => [(k, v)]
  | p :: rest, k, v => if p.1 = k then (k, v) :: rest else p :: kvSet rest k v

/-- Whether a key is present in the table. -/
def containsKey : Store → Key → Bool
  | [], _ => false
  | p :: rest, k => p.1 == k || containsKey rest k

/-- Key-uniqueness invariant of the table (`key` is its primary key). -/
def NodupKeys : Store → Prop
  | [] => True
  | p :: rest => containsKey rest p.1 = false ∧ NodupKeys rest

/-- Number of rows stored under a key. -/
def countKey (s : Store) (k : Key) : Nat :=
  (s.filter (fun p => p.1 == k)).length

/-!
## The engine's routes

Each route is embedded as a function that threads the store through
the sequence of `kv` calls it performs and returns the final store
together with the HTTP outcome.  Error returns happen before any
write, exactly as in the source, so they return the input store.
-/

/-- The check written for one device by `POST /weekly-plans`. -/
def planCheck (year week : Int) (deviceId assignedBy nowISO : String) : Check :=
  { id := Key.check year week deviceId
    deviceId := deviceId
    week := week
    year := year
    status := "pending"
    assignedAt := nowISO
    assignedBy := assignedBy
    completedAt := none
    completedBy := none
    comment := none }

/-- `POST /weekly-plans`: store the plan at `plan:<year>:<week>`, then
upsert one pending check per listed device at
`check:<year>:<week>:<deviceId>`. -/
def createChecksForPlan (s : Store) (year week : Int) (deviceIds : List String)
    (assignedBy nowISO : String) : Store × Plan :=
  let planId := Key.plan year week
  let plan : Plan :=
    { id := planId, week := week, year := year, deviceIds := deviceIds
      assignedBy := assignedBy, createdAt := nowISO, status := "planned" }
  let s1 := kvSet s planId (.plan plan)
  let s2 := deviceIds.foldl
    (fun acc did =>
      kvSet acc (Key.check year week did)
        (.check (planCheck year week did assignedBy nowISO))) s1
  (s2, plan)

/-- Outcome of `PUT /checks/:checkId/complete`.  `illTyped` marks the
states — unreachable through the API — where the value stored at the
check or device key is an entity of the wrong kind; JavaScript has no
typed branch here, so the model isolates those states explicitly. -/
inductive CompleteOutcome where
  | notFoundCheck
  | notFoundDevice
  | ok (check : Check) (nextCheckId : Key) (nextYear nextWeek : Int)
  | illTyped
  deriving Repr, DecidableEq

/-- The completed version of a check, as built by the completion
route's spread `{...check, status, completedBy, completedAt, comment}`
(`comment || ''` maps a missing or empty comment to the empty
string). -/
def completedVersion (c : Check) (completedBy : String) (comment : Option String)
    (nowISO : String) : Check :=
  { c with
      status := "completed"
      completedBy := some completedBy
      completedAt := some nowISO
      comment := some (comment.getD "") }

/-- The device after the completion route's spread
`{...device, lastCheckedAt, lastCheckedBy}`. -/
def stampedDevice (d : Device) (completedBy nowISO : String) : Device :=
  { d with
      lastCheckedAt := some nowISO
      lastCheckedBy := some completedBy }

/-- `now + plannedFrequency * 7 days` in local calendar days
(`setDate(getDate() + f*7)` adds exactly `f*7` days). -/
def nextDayOf (nowDay : Int) (plannedFrequency : Nat) : Int :=
  nowDay + (plannedFrequency : Int) * 7

/-- The successor check's key:
`check:<nextDate.getFullYear()>:<getWeekNumber(nextDate)>:<deviceId>`. -/
def successorKey (nextDay : Int) (deviceId : String) : Key :=
  Key.check (yearOfDay nextDay) (getWeekNumber nextDay) deviceId

/-- The successor check written by the completion route. -/
def successorCheck (nextDay : Int) (deviceId nowISO : String) : Check :=
  { id := successorKey nextDay deviceId
    deviceId := deviceId
    week := getWeekNumber nextDay
    year := yearOfDay nextDay
    status := "pending"
    assignedAt := nowISO
    assignedBy := "system"
    completedAt := none
    completedBy := none
    comment := none }

/-- `PUT /checks/:checkId/complete`: 404 if the check or its device is
absent (before any write); otherwise mark the check completed, stamp
the device's `lastCheckedAt`/`lastCheckedBy`, and upsert the successor
check at `check:<getFullYear(next)>:<getWeekNumber(next)>:<deviceId>`
where `next = now + plannedFrequency * 7 days`.  `nowDay` is the local
calendar day number of the completion instant and `nowISO` its
serialised timestamp. -/
def completeCheck (s : Store) (checkId : Key) (completedBy : String)
    (comment : Option String) (nowDay : Int) (nowISO : String) :
    Store × CompleteOutcome :=
  match kvGet s checkId with
  | none => (s, .notFoundCheck)
  | some (Entity.check check) =>
    match kvGet s (Key.device check.deviceId) with
    | none => (s, .notFoundDevice)
    | some (Entity.device device) =>
      let updatedCheck := completedVersion check completedBy comment nowISO
      let s1 := kvSet s checkId (.check updatedCheck)
      let s2 := kvSet s1 (Key.device check.deviceId)
        (.device (stampedDevice device completedBy nowISO))
      let nextDay := nextDayOf nowDay device.plannedFrequency
      let nextCheckId := successorKey nextDay check.deviceId
      let s3 := kvSet s2 nextCheckId
        (.check (successorCheck nextDay check.deviceId nowISO))
      (s3, .ok updatedCheck nextCheckId (yearOfDay nextDay) (getWeekNumber nextDay))
    | some _ => (s, .illTyped)
  | some _ => (s, .illTyped)

/-- `kv.getByPrefix('check:')` as used by `GET /delayed-checks`: the
values stored under check-namespace keys.  A value of the wrong kind
under a check key would have `status === undefined` in JavaScript and
be dropped by the pending filter, so dropping it here is faithful. -/
def checksOf : Store → List Check
  | [] => []
  | (Key.check _ _ _, Entity.check c) :: rest => c :: checksOf rest
  | _ :: rest => checksOf rest

/-- The delayed predicate of `GET /delayed-checks`: pending, and
scheduled strictly before the current (year, week), year first. -/
def isDelayedAt (currentYear currentWeek : Int) (ch : Check) : Bool :=
  ch.status == "pending" &&
    (ch.year < currentYear || (ch.year == currentYear && ch.week < currentWeek))

/-- `GET /delayed-checks` (`findDelayed`): scan all checks and keep the
pending ones scheduled strictly before the current week, where the
current pair is `(now.getFullYear(), getWeekNumber(now))`. -/
def findDelayed (s : Store) (nowDay : Int) : List Check :=
  let currentYear := yearOfDay nowDay
  let currentWeek := getWeekNumber nowDay
  (checksOf s).filter (isDelayedAt currentYear currentWeek)

/-!
## Client-side overdue classification (DelayedDevices.tsx)
-/

/-- `getDaysOverdue`: whole weeks since the scheduled week at 52 weeks
per year, converted to days at 7 days per week. -/
def getDaysOverdue (checkYear checkWeek : Int) (nowDay : Int) : Int :=
  let currentYear := yearOfDay nowDay
  let currentWeek := getWeekNumberClient nowDay
  ((currentYear - checkYear) * 52 + (currentWeek - checkWeek)) * 7

/-- The severity grouping of `groupedChecks` (and `getSeverityBadge`):
default `recent`, `critical` above 14 days, else `moderate` above 7. -/
def severityCategory (daysOverdue : Int) : String :=
  if daysOverdue > 14 then "critical"
  else if daysOverdue > 7 then "moderate"
  else "recent"

/-!
## Concrete sample data

Small stores used to evaluate the routes at specific inputs.
-/

/-- A device with weekly frequency, as created by `POST /devices`. -/
def sampleDeviceA : Device :=
  { id := "device:1:a", name := "Pump", identificationNumber := "P-100"
    location := "Hall", plannedFrequency := 1, planComment := ""
    status := "active", createdAt := "t0"
    lastCheckedAt := none, lastCheckedBy := none }

/-- A store holding `sampleDeviceA` and a pending check scheduled at
(2024, week 52) — the last ISO week of 2024. -/
def boundaryStore : Store :=
  [(Key.device "device:1:a", .device sampleDeviceA),
   (Key.check 2024 52 "device:1:a",
     .check (planCheck 2024 52 "device:1:a" "admin" "t0"))]

/-- A store holding `sampleDeviceA` and a pending check scheduled at
(2025, week 10) — the concrete scenario of the spec's §8. -/
def witnessStore : Store :=
  [(Key.device "device:1:a", .device sampleDeviceA),
   (Key.check 2025 10 "device:1:a",
     .check (planCheck 2025 10 "device:1:a" "admin" "t0"))]

/-- A store whose check at (2025, week 10) has already been completed
by employee `E1`. -/
def recompletedStore : Store :=
  [(Key.device "device:1:a", .device sampleDeviceA),
   (Key.check 2025 10 "device:1:a",
     .check (completedVersion (planCheck 2025 10 "device:1:a" "admin" "t0")
       "E1" none "t1"))]

/-- A store holding `sampleDeviceA` (weekly frequency) and a pending
check scheduled at (2025, week 12): completing it during week 11
schedules the successor for the very same (year, week), so the
successor key coincides with the completed check's own key. -/
def collisionStore : Store :=
  [(Key.device "device:1:a", .device sampleDeviceA),
   (Key.check 2025 12 "device:1:a",
     .check (planCheck 2025 12 "device:1:a" "admin" "t0"))]

end EGA

/-!
## The key-value helper module (kv_store.ts)

Modelled separately from the domain store above because its `set`
guard inspects the raw string key and two fields of the value.
-/

namespace EGA.KV

/-- A stored value, exposing the two fields the `PREVENT_AUTO_SEED`
guard reads; everything else is opaque payload. -/
structure Value where
  employeeId : Option String
  identificationNumber : Option String
  payload : String
  deriving Repr, DecidableEq

/-- The key-value table of `kv_store.ts` (string keys). -/
abbrev Table := List (String × Value)

/-- `String.prototype.startsWith`, written on the character list so
that it evaluates by kernel reduction. -/
def strStartsWith (s pre : String) : Bool :=
  s.data.take pre.data.length == pre.data

/-- `key.replace(/^user:/, '')` for a key that starts with `user:`:
drop the first `n` characters. -/
def strDrop (s : String) (n : Nat) : String := ⟨s.data.drop n⟩

/-- The sample-employee regex `/^EMP0\d+$/i`: case-insensitive `EMP0`
followed by at least one digit, nothing else. -/
def sampleEmployeePattern (s : String) : Bool :=
  s.data.length ≥ 5 &&
    (⟨(s.data.take 4).map Char.toUpper⟩ : String) == "EMP0" &&
    (s.data.drop 4).all Char.isDigit

/-- The hard-coded sample device identification numbers. -/
def sampleDeviceIds : List String :=
  ["HP-001", "CBS-002", "CNC-003", "COMP-004", "WS-005"]

/-- Plain primary-key upsert on the table. -/
def upsert : Table → String → Value → Table
  | [], k, v => [(k, v)]
  | p :: rest, k, v => if p.1 = k then (k, v) :: rest else p :: upsert rest k v

/-- `kv_store.set`: when `PREVENT_AUTO_SEED` is active, silently skip
sample user records (`user:` keys whose employee id — taken from the
value, or from the key when the value has none — matches the sample
pattern) and sample device records (`device:` keys whose
`identificationNumber` is one of the sample ids); otherwise upsert. -/
def set (preventAutoSeed : Bool) (t : Table) (key : String) (value : Value) :
    Table :=
  if preventAutoSeed && strStartsWith key "user:" &&
      (let emp := match value.employeeId with
        | some e => if e = "" then strDrop key 5 else e
        | none => strDrop key 5
       emp ≠ "" && sampleEmployeePattern emp) then
    t
  else if preventAutoSeed && strStartsWith key "device:" &&
      (match value.identificationNumber with
        | some i => i ≠ "" && sampleDeviceIds.contains i
        | none => false) then
    t
  else
    upsert t key value

/-- `kv_store.get`: the value at the key, absent otherwise. -/
def get : Table → String → Option Value
  | [], _ => none
  | p :: rest, k => if p.1 = k then some p.2 else get rest k

/-- `kv_store.del`: delete the row with the key; deleting an absent
key touches nothing and raises no error. -/
def del (t : Table) (key : String) : Table :=
  t.filter (fun p => p.1 ≠ key)

end EGA.KV

/-!
## Helper lemmas
-/

namespace EGA

theorem daysFromCivil_jan4 (y : Int) :
    daysFromCivil y 1 4 = daysFromCivil y 1 1 + 3 := by
  simp only [daysFromCivil]
  omega

theorem weekFormulas_agree (a y : Int) (ha : (a + 4) % 7 = 4) :
    1 + (2 * (a - daysFromCivil y 1 4 - 3 +
        ((daysFromCivil y 1 4 + 4) % 7 + 6) % 7) + 7) / 14
      = (a - daysFromCivil y 1 1 + 1 + 6) / 7 := by
  rw [daysFromCivil_jan4]
  generalize daysFromCivil y 1 1 = b
  omega

theorem getWeekNumber_eq_getWeekNumberClient (t : Int) :
    getWeekNumber t = getWeekNumberClient t := by
  have hthu : t + 4 - (if (t + 4) % 7 = 0 then 7 else (t + 4) % 7)
      = t + 3 - ((t + 4) % 7 + 6) % 7 := by
    split <;> omega
  simp only [getWeekNumber, getWeekNumberClient, jsDay]
  rw [hthu]
  exact weekFormulas_agree _ _ (by omega)

theorem getWeekNumberDeviceChecks_eq_client (t : Int) :
    getWeekNumberDeviceChecks t = getWeekNumberClient t := rfl

theorem kvGet_kvSet_self (s : Store) (k : Key) (v : Entity) :
    kvGet (kvSet s k v) k = some v := by
  induction s with
  | nil => simp [kvSet, kvGet]
  | cons p rest ih =>
    by_cases h : p.1 = k
    · simp [kvSet, kvGet, h]
    · simp [kvSet, kvGet, h, ih]

theorem kvGet_kvSet_ne (s : Store) (k k' : Key) (v : Entity) (h : k' ≠ k) :
    kvGet (kvSet s k v) k' = kvGet s k' := by
  induction s with
  | nil => simp [kvSet, kvGet, Ne.symm h]
  | cons p rest ih =>
    by_cases hp : p.1 = k
    · simp [kvSet, kvGet, hp, Ne.symm h]
    · simp [kvSet, kvGet, hp, ih]

theorem containsKey_kvSet (s : Store) (k k' : Key) (v : Entity) :
    containsKey (kvSet s k v) k' = (k' == k || containsKey s k') := by
  induction s with
  | nil => simp [kvSet, containsKey, BEq.comm]
  | cons p rest ih =>
    by_cases hp : p.1 = k
    · subst hp
      simp [kvSet, containsKey, BEq.comm]
    · simp [kvSet, containsKey, hp, ih]
      cases h1 : (p.1 == k') <;> cases h2 : (k' == k) <;> simp

theorem nodupKeys_kvSet (s : Store) (k : Key) (v : Entity) (h : NodupKeys s) :
    NodupKeys (kvSet s k v) := by
  induction s with
  | nil => simp [kvSet, NodupKeys, containsKey]
  | cons p rest ih =>
    obtain ⟨h1, h2⟩ := h
    by_cases hp : p.1 = k
    · subst hp
      simp [kvSet, NodupKeys]
      exact ⟨h1, h2⟩
    · simp [kvSet, NodupKeys, hp]
      refine ⟨?_, ih h2⟩
      rw [containsKey_kvSet]
      simp [h1, hp]

theorem countKey_eq_zero (s : Store) (k : Key) (h : containsKey s k = false) :
    countKey s k = 0 := by
  induction s with
  | nil => simp [countKey]
  | cons p rest ih =>
    simp [containsKey] at h
    have := ih h.2
    simp [countKey, List.filter_cons, h.1] at this ⊢
    exact this

theorem countKey_eq_one (s : Store) (k : Key) (h : NodupKeys s)
    (hv : (kvGet s k).isSome) : countKey s k = 1 := by
  induction s with
  | nil => simp [kvGet] at hv
  | cons p rest ih =>
    obtain ⟨h1, h2⟩ := h
    by_cases hp : p.1 = k
    · have : countKey rest k = 0 := countKey_eq_zero rest k (hp ▸ h1)
      simp [countKey, List.filter_cons, hp] at this ⊢
      exact this
    · simp [countKey, List.filter_cons, hp]
      have hv' : (kvGet rest k).isSome := by simpa [kvGet, hp] using hv
      simpa [countKey] using ih h2 hv'

end EGA

/-!
## Route-level helper lemmas
-/

namespace EGA

/-- Unfolding of the successful completion path: with the check and its
device present, `completeCheck` performs exactly the three writes of
the route, in order. -/
theorem completeCheck_ok_eq (s : Store) (checkId : Key) (c : Check) (d : Device)
    (b : String) (cm : Option String) (nd : Int) (ni : String)
    (hc : kvGet s checkId = some (.check c))
    (hd : kvGet s (Key.device c.deviceId) = some (.device d)) :
    completeCheck s checkId b cm nd ni =
      (kvSet
        (kvSet (kvSet s checkId (.check (completedVersion c b cm ni)))
          (Key.device c.deviceId) (.device (stampedDevice d b ni)))
        (successorKey (nextDayOf nd d.plannedFrequency) c.deviceId)
        (.check (successorCheck (nextDayOf nd d.plannedFrequency) c.deviceId ni)),
       .ok (completedVersion c b cm ni)
         (successorKey (nextDayOf nd d.plannedFrequency) c.deviceId)
         (yearOfDay (nextDayOf nd d.plannedFrequency))
         (getWeekNumber (nextDayOf nd d.plannedFrequency))) := by
  simp [completeCheck, hc, hd, successorKey]

/-- A key holding a check value cannot be the device key it
references. -/
theorem checkId_ne_deviceKey (s : Store) (checkId : Key) (c : Check) (d : Device)
    (hc : kvGet s checkId = some (.check c))
    (hd : kvGet s (Key.device c.deviceId) = some (.device d)) :
    checkId ≠ Key.device c.deviceId := by
  intro he
  rw [he, hd] at hc
  exact Entity.noConfusion (Option.some.inj hc)

/-- The plan-check write loop leaves keys outside its device list
untouched. -/
theorem foldl_planChecks_get_not_mem (y w : Int) (ab n : String)
    (dids : List String) (base : Store) (k : Key)
    (hk : ∀ d ∈ dids, Key.check y w d ≠ k) :
    kvGet (dids.foldl (fun acc d =>
        kvSet acc (Key.check y w d) (.check (planCheck y w d ab n))) base) k
      = kvGet base k := by
  induction dids generalizing base with
  | nil => rfl
  | cons d ds ih =>
    simp only [List.foldl_cons]
    rw [ih _ (fun d' hd' => hk d' (List.mem_cons_of_mem _ hd'))]
    exact kvGet_kvSet_ne _ _ _ _ (Ne.symm (hk d (List.mem_cons_self d ds)))

/-- After the plan-check write loop, every listed device holds exactly
the plan's check value. -/
theorem foldl_planChecks_get_mem (y w : Int) (ab n : String)
    (dids : List String) (base : Store) (did : String) (hmem : did ∈ dids) :
    kvGet (dids.foldl (fun acc d =>
        kvSet acc (Key.check y w d) (.check (planCheck y w d ab n))) base)
        (Key.check y w did)
      = some (.check (planCheck y w did ab n)) := by
  induction dids generalizing base with
  | nil => cases hmem
  | cons d ds ih =>
    simp only [List.foldl_cons]
    by_cases hin : did ∈ ds
    · exact ih _ hin
    · have hd : did = d := by
        rcases List.mem_cons.mp hmem with h | h
        · exact h
        · exact absurd h hin
      subst hd
      rw [foldl_planChecks_get_not_mem y w ab n ds _ (Key.check y w did) ?_]
      · exact kvGet_kvSet_self _ _ _
      · intro d' hd' he
        have : d' = did := by
          simpa using he
        exact hin (this ▸ hd')

/-- The plan-check write loop preserves key uniqueness. -/
theorem foldl_planChecks_nodup (y w : Int) (ab n : String)
    (dids : List String) (base : Store) (h : NodupKeys base) :
    NodupKeys (dids.foldl (fun acc d =>
        kvSet acc (Key.check y w d) (.check (planCheck y w d ab n))) base) := by
  induction dids generalizing base with
  | nil => exact h
  | cons d ds ih =>
    simp only [List.foldl_cons]
    exact ih _ (nodupKeys_kvSet _ _ _ h)

/-- The values produced by the check-namespace scan are exactly the
check entities stored under check keys. -/
theorem mem_checksOf (s : Store) (c : Check) :
    c ∈ checksOf s ↔ ∃ y w did, (Key.check y w did, Entity.check c) ∈ s := by
  induction s with
  | nil => simp [checksOf]
  | cons p rest ih =>
    obtain ⟨k, v⟩ := p
    cases k with
    | check y w did =>
      cases v with
      | check c' =>
        simp only [checksOf, List.mem_cons, ih, Prod.mk.injEq]
        constructor
        · rintro (rfl | ⟨y', w', did', hm⟩)
          · exact ⟨y, w, did, Or.inl ⟨rfl, rfl⟩⟩
          · exact ⟨y', w', did', Or.inr hm⟩
        · rintro ⟨y', w', did', (⟨hk, hv⟩ | hm)⟩
          · cases hv
            exact Or.inl rfl
          · exact Or.inr ⟨y', w', did', hm⟩
      | device d' =>
        simp only [checksOf, ih, List.mem_cons, Prod.mk.injEq]
        constructor
        · rintro ⟨y', w', did', hm⟩
          exact ⟨y', w', did', Or.inr hm⟩
        · rintro ⟨y', w', did', (⟨hk, hv⟩ | hm)⟩
          · exact absurd hv (by simp)
          · exact ⟨y', w', did', hm⟩
      | plan p' =>
        simp only [checksOf, ih, List.mem_cons, Prod.mk.injEq]
        constructor
        · rintro ⟨y', w', did', hm⟩
          exact ⟨y', w', did', Or.inr hm⟩
        · rintro ⟨y', w', did', (⟨hk, hv⟩ | hm)⟩
          · exact absurd hv (by simp)
          · exact ⟨y', w', did', hm⟩
    | device i =>
      simp only [checksOf, ih, List.mem_cons, Prod.mk.injEq]
      constructor
      · rintro ⟨y', w', did', hm⟩
        exact ⟨y', w', did', Or.inr hm⟩
      · rintro ⟨y', w', did', (⟨hk, hv⟩ | hm)⟩
        · exact absurd hk (by simp)
        · exact ⟨y', w', did', hm⟩
    | plan y w =>
      simp only [checksOf, ih, List.mem_cons, Prod.mk.injEq]
      constructor
      · rintro ⟨y', w', did', hm⟩
        exact ⟨y', w', did', Or.inr hm⟩
      · rintro ⟨y', w', did', (⟨hk, hv⟩ | hm)⟩
        · exact absurd hk (by simp)
        · exact ⟨y', w', did', hm⟩

end EGA

namespace EGA.KV

theorem get_upsert_self (t : Table) (k : String) (v : Value) :
    get (upsert t k v) k = some v := by
  induction t with
  | nil => simp [upsert, get]
  | cons p rest ih =>
    by_cases h : p.1 = k
    · simp [upsert, get, h]
    · simp [upsert, get, h, ih]

theorem get_upsert_ne (t : Table) (k k' : String) (v : Value) (h : k' ≠ k) :
    get (upsert t k v) k' = get t k' := by
  induction t with
  | nil => simp [upsert, get, Ne.symm h]
  | cons p rest ih =>
    by_cases hp : p.1 = k
    · simp [upsert, get, hp, Ne.symm h]
    · simp [upsert, get, hp, ih]

theorem get_del (t : Table) (k : String) : get (del t k) k = none := by
  induction t with
  | nil => simp [del, get]
  | cons p rest ih =>
    by_cases h : p.1 = k
    · simpa [del, get, h] using ih
    · simpa [del, get, h] using ih

theorem get_eq_none_forall (t : Table) (k : String) (h : get t k = none) :
    ∀ p ∈ t, p.1 ≠ k := by
  induction t with
  | nil => simp
  | cons p rest ih =>
    by_cases hp : p.1 = k
    · simp [get, hp] at h
    · simp [get, hp] at h
      intro q hq
      rcases List.mem_cons.mp hq with rfl | hq2
      · exact hp
      · exact ih h q hq2

theorem del_absent (t : Table) (k : String) (h : get t k = none) :
    del t k = t := by
  unfold del
  apply List.filter_eq_self.mpr
  intro a ha
  simpa using get_eq_none_forall t k h a ha

end EGA.KV

/-!
## Claim theorems
-/

namespace EGA

/-- Claim C1 (amended): for every existing check and device,
completion creates exactly one successor check, pending and assigned
by "system", stored under the key built from the calendar year
(`getFullYear`) and the ISO week number of `now + plannedFrequency * 7
days`; every key other than the completed check, its device, and the
successor key is untouched. -/
theorem completeCheck_creates_successor (s : Store) (checkId : Key) (c : Check)
    (d : Device) (b : String) (cm : Option String) (nd : Int) (ni : String)
    (h : NodupKeys s)
    (hc : kvGet s checkId = some (.check c))
    (hd : kvGet s (Key.device c.deviceId) = some (.device d)) :
    kvGet (completeCheck s checkId b cm nd ni).1
        (successorKey (nextDayOf nd d.plannedFrequency) c.deviceId)
      = some (.check (successorCheck (nextDayOf nd d.plannedFrequency) c.deviceId ni)) ∧
    (successorCheck (nextDayOf nd d.plannedFrequency) c.deviceId ni).status = "pending" ∧
    (successorCheck (nextDayOf nd d.plannedFrequency) c.deviceId ni).assignedBy = "system" ∧
    (successorCheck (nextDayOf nd d.plannedFrequency) c.deviceId ni).year
      = yearOfDay (nextDayOf nd d.plannedFrequency) ∧
    (successorCheck (nextDayOf nd d.plannedFrequency) c.deviceId ni).week
      = getWeekNumber (nextDayOf nd d.plannedFrequency) ∧
    countKey (completeCheck s checkId b cm nd ni).1
        (successorKey (nextDayOf nd d.plannedFrequency) c.deviceId) = 1 ∧
    (∀ k : Key, k ≠ checkId → k ≠ Key.device c.deviceId →
      k ≠ successorKey (nextDayOf nd d.plannedFrequency) c.deviceId →
      kvGet (completeCheck s checkId b cm nd ni).1 k = kvGet s k) := by
  rw [completeCheck_ok_eq s checkId c d b cm nd ni hc hd]
  refine ⟨kvGet_kvSet_self _ _ _, rfl, rfl, rfl, rfl, ?_, ?_⟩
  · apply countKey_eq_one
    · exact nodupKeys_kvSet _ _ _ (nodupKeys_kvSet _ _ _ (nodupKeys_kvSet _ _ _ h))
    · rw [kvGet_kvSet_self]
      rfl
  · intro k hk1 hk2 hk3
    rw [kvGet_kvSet_ne _ _ _ _ hk3, kvGet_kvSet_ne _ _ _ _ hk2,
      kvGet_kvSet_ne _ _ _ _ hk1]

/-- Claim C1 (counterexample): completing the week-52 check of 2024 on
Monday 2024-12-23 with weekly frequency schedules the successor for
2024-12-30, which lies in ISO week 1 of week-year 2025; the claim says
the successor is stored at `weekOf(nextDate) = (2025, 1)`, but the
code stores it at `(2024, 1)` (calendar year), and no check exists at
`(2025, 1)`. -/
theorem successor_year_not_iso_weekYear :
    (completeCheck boundaryStore (Key.check 2024 52 "device:1:a") "E1" none
        (daysFromCivil 2024 12 23) "ts").2
      = .ok (completedVersion (planCheck 2024 52 "device:1:a" "admin" "t0")
          "E1" none "ts")
          (Key.check 2024 1 "device:1:a") 2024 1 ∧
    specWeekOf (nextDayOf (daysFromCivil 2024 12 23) 1) = (2025, 1) ∧
    kvGet (completeCheck boundaryStore (Key.check 2024 52 "device:1:a") "E1" none
        (daysFromCivil 2024 12 23) "ts").1 (Key.check 2024 1 "device:1:a")
      = some (.check (successorCheck (nextDayOf (daysFromCivil 2024 12 23) 1)
          "device:1:a" "ts")) ∧
    kvGet (completeCheck boundaryStore (Key.check 2024 52 "device:1:a") "E1" none
        (daysFromCivil 2024 12 23) "ts").1 (Key.check 2025 1 "device:1:a")
      = none := by decide

/-- Witness for C1 (amended): the spec §8 scenario — check at (2025,
10) completed on Monday of week 11 with weekly frequency yields one
pending successor at (2025, 12). -/
theorem completeCheck_creates_successor_witness :
    successorKey (nextDayOf (daysFromCivil 2025 3 10) 1) "device:1:a"
      = Key.check 2025 12 "device:1:a" ∧
    kvGet (completeCheck witnessStore (Key.check 2025 10 "device:1:a") "E1" none
        (daysFromCivil 2025 3 10) "t1").1
        (successorKey (nextDayOf (daysFromCivil 2025 3 10) 1) "device:1:a")
      = some (.check (successorCheck (nextDayOf (daysFromCivil 2025 3 10) 1)
          "device:1:a" "t1")) ∧
    countKey (completeCheck witnessStore (Key.check 2025 10 "device:1:a") "E1" none
        (daysFromCivil 2025 3 10) "t1").1
        (successorKey (nextDayOf (daysFromCivil 2025 3 10) 1) "device:1:a") = 1 := by
  have h := completeCheck_creates_successor witnessStore
    (Key.check 2025 10 "device:1:a")
    (planCheck 2025 10 "device:1:a" "admin" "t0") sampleDeviceA
    "E1" none (daysFromCivil 2025 3 10) "t1"
    ⟨by decide, by decide, trivial⟩ rfl rfl
  exact ⟨by decide, h.1, h.2.2.2.2.2.1⟩

/-- Claim C2 (confirmed): a check is in the result of
`GET /delayed-checks` exactly when it is stored under a check key, is
pending, and its (year, week) is lexicographically strictly below the
current pair `(now.getFullYear(), getWeekNumber(now))`. -/
theorem findDelayed_spec (s : Store) (t : Int) (c : Check) :
    c ∈ findDelayed s t ↔
      (∃ y w did, (Key.check y w did, Entity.check c) ∈ s) ∧
      c.status = "pending" ∧
      (c.year < yearOfDay t ∨ (c.year = yearOfDay t ∧ c.week < getWeekNumber t)) := by
  simp [findDelayed, List.mem_filter, mem_checksOf, isDelayedAt]

/-- Claim C3 (counterexample): the (year, week) pair the code computes
for 2024-12-30 is (2024, 1) — `getFullYear` paired with the ISO week
number — not the ISO pair (2025, 1) the claim asserts. -/
theorem weekOf_boundary_claim_false :
    codeWeekPair (daysFromCivil 2024 12 30) = (2024, 1) ∧
    codeWeekPair (daysFromCivil 2024 12 30) ≠ (2025, 1) := by decide

/-- Claim C3 (amended): the week-number component alone is ISO-correct
at the boundary dates (1, 1, 52), but the code pairs it with the
calendar year of the input date, producing (2024, 1), (2025, 1) and
(2023, 52), where the spec's ISO `weekOf` yields (2025, 1), (2025, 1)
and (2022, 52). -/
theorem weekOf_boundary_pairs :
    getWeekNumber (daysFromCivil 2024 12 30) = 1 ∧
    getWeekNumber (daysFromCivil 2025 1 1) = 1 ∧
    getWeekNumber (daysFromCivil 2023 1 1) = 52 ∧
    codeWeekPair (daysFromCivil 2024 12 30) = (2024, 1) ∧
    codeWeekPair (daysFromCivil 2025 1 1) = (2025, 1) ∧
    codeWeekPair (daysFromCivil 2023 1 1) = (2023, 52) ∧
    specWeekOf (daysFromCivil 2024 12 30) = (2025, 1) ∧
    specWeekOf (daysFromCivil 2025 1 1) = (2025, 1) ∧
    specWeekOf (daysFromCivil 2023 1 1) = (2022, 52) := by decide

/-- Claim C4 (confirmed): the overdue day count is exactly
`((nowYear - checkYear) * 52 + (nowWeek - checkWeek)) * 7`; the
severity grouping partitions it at 7 and 14 days; a check one week old
counts 7 days and is "recent", three weeks old counts 21 days and is
"critical". -/
theorem overdue_classification (cy cw t : Int) :
    getDaysOverdue cy cw t
        = ((yearOfDay t - cy) * 52 + (getWeekNumberClient t - cw)) * 7 ∧
    (∀ n : Int,
        (n ≤ 7 → severityCategory n = "recent") ∧
        (7 < n → n ≤ 14 → severityCategory n = "moderate") ∧
        (14 < n → severityCategory n = "critical")) ∧
    (yearOfDay t = cy → getWeekNumberClient t = cw + 1 →
        getDaysOverdue cy cw t = 7 ∧
        severityCategory (getDaysOverdue cy cw t) = "recent") ∧
    (yearOfDay t = cy → getWeekNumberClient t = cw + 3 →
        getDaysOverdue cy cw t = 21 ∧
        severityCategory (getDaysOverdue cy cw t) = "critical") := by
  refine ⟨rfl, ?_, ?_, ?_⟩
  · intro n
    refine ⟨fun h => ?_, fun h1 h2 => ?_, fun h => ?_⟩ <;>
      unfold severityCategory <;> split_ifs <;> first | rfl | omega
  · intro hy hw
    have hval : getDaysOverdue cy cw t = 7 := by
      simp only [getDaysOverdue, hy, hw]
      ring
    exact ⟨hval, by rw [hval]; rfl⟩
  · intro hy hw
    have hval : getDaysOverdue cy cw t = 21 := by
      simp only [getDaysOverdue, hy, hw]
      ring
    exact ⟨hval, by rw [hval]; rfl⟩

/-- Witness for C4: a check at week 10 of 2025 evaluated in week 11
(2025-03-12) and in week 13 (2025-03-26). -/
theorem overdue_classification_witness :
    getDaysOverdue 2025 10 (daysFromCivil 2025 3 12) = 7 ∧
    severityCategory (getDaysOverdue 2025 10 (daysFromCivil 2025 3 12)) = "recent" ∧
    getDaysOverdue 2025 10 (daysFromCivil 2025 3 26) = 21 ∧
    severityCategory (getDaysOverdue 2025 10 (daysFromCivil 2025 3 26)) = "critical" ∧
    severityCategory 10 = "moderate" := by
  obtain ⟨-, hpart, hrec, -⟩ := overdue_classification 2025 10 (daysFromCivil 2025 3 12)
  obtain ⟨-, -, -, hcrit⟩ := overdue_classification 2025 10 (daysFromCivil 2025 3 26)
  have ha := hrec (by decide) (by decide)
  have hb := hcrit (by decide) (by decide)
  exact ⟨ha.1, ha.2, hb.1, hb.2, (hpart 10).2.1 (by decide) (by decide)⟩

/-- Claim C5 (confirmed): when the check is absent, or the check exists
but its device is absent, completion returns 404 with the store
unchanged — no write happens, in particular no successor check. -/
theorem completeCheck_notFound_no_write (s : Store) (checkId : Key)
    (b : String) (cm : Option String) (nd : Int) (ni : String) :
    (kvGet s checkId = none →
      completeCheck s checkId b cm nd ni = (s, .notFoundCheck)) ∧
    (∀ c : Check, kvGet s checkId = some (.check c) →
      kvGet s (Key.device c.deviceId) = none →
      completeCheck s checkId b cm nd ni = (s, .notFoundDevice)) := by
  constructor
  · intro h
    simp [completeCheck, h]
  · intro c hc hd
    simp [completeCheck, hc, hd]

/-- Witness for C5: an empty store, and a store with a check whose
device is missing. -/
theorem completeCheck_notFound_no_write_witness :
    completeCheck [] (Key.check 2025 10 "device:1:a") "E1" none 0 "ts"
        = ([], .notFoundCheck) ∧
    completeCheck
        [(Key.check 2025 10 "device:1:a",
          .check (planCheck 2025 10 "device:1:a" "admin" "t0"))]
        (Key.check 2025 10 "device:1:a") "E1" none 0 "ts"
      = ([(Key.check 2025 10 "device:1:a",
          .check (planCheck 2025 10 "device:1:a" "admin" "t0"))],
         .notFoundDevice) := by
  constructor
  · exact (completeCheck_notFound_no_write [] (Key.check 2025 10 "device:1:a")
      "E1" none 0 "ts").1 rfl
  · exact (completeCheck_notFound_no_write _ (Key.check 2025 10 "device:1:a")
      "E1" none 0 "ts").2 _ rfl rfl

/-- Claim C6 (confirmed): creating a plan for (year, week) and then a
second plan for the same (year, week) leaves, for every device of the
second plan, exactly one check under `check:<year>:<week>:<deviceId>`,
holding the second plan's `assignedBy` (last-write-wins); key
uniqueness is preserved, so the (year, week, deviceId) triple stays
unique. -/
theorem createChecksForPlan_idempotent (s : Store) (y w : Int)
    (dids1 dids2 : List String) (ab1 ab2 n1 n2 : String) (h : NodupKeys s) :
    NodupKeys (createChecksForPlan
        (createChecksForPlan s y w dids1 ab1 n1).1 y w dids2 ab2 n2).1 ∧
    ∀ did ∈ dids2,
      kvGet (createChecksForPlan
          (createChecksForPlan s y w dids1 ab1 n1).1 y w dids2 ab2 n2).1
          (Key.check y w did)
        = some (.check (planCheck y w did ab2 n2)) ∧
      countKey (createChecksForPlan
          (createChecksForPlan s y w dids1 ab1 n1).1 y w dids2 ab2 n2).1
          (Key.check y w did) = 1 := by
  have hn2 : NodupKeys (createChecksForPlan
      (createChecksForPlan s y w dids1 ab1 n1).1 y w dids2 ab2 n2).1 := by
    simp only [createChecksForPlan]
    apply foldl_planChecks_nodup
    apply nodupKeys_kvSet
    apply foldl_planChecks_nodup
    exact nodupKeys_kvSet _ _ _ h
  refine ⟨hn2, fun did hmem => ?_⟩
  have hget : kvGet (createChecksForPlan
      (createChecksForPlan s y w dids1 ab1 n1).1 y w dids2 ab2 n2).1
      (Key.check y w did) = some (.check (planCheck y w did ab2 n2)) := by
    simp only [createChecksForPlan]
    exact foldl_planChecks_get_mem y w ab2 n2 dids2 _ did hmem
  exact ⟨hget, countKey_eq_one _ _ hn2 (by rw [hget]; rfl)⟩

/-- Witness for C6: two overlapping plans for (2025, 10); the shared
device ends with exactly one check carrying the second plan's
assigner. -/
theorem createChecksForPlan_idempotent_witness :
    kvGet (createChecksForPlan
        (createChecksForPlan [] 2025 10 ["device:1:a", "device:2:b"] "A1" "t1").1
        2025 10 ["device:2:b"] "A2" "t2").1
        (Key.check 2025 10 "device:2:b")
      = some (.check (planCheck 2025 10 "device:2:b" "A2" "t2")) ∧
    countKey (createChecksForPlan
        (createChecksForPlan [] 2025 10 ["device:1:a", "device:2:b"] "A1" "t1").1
        2025 10 ["device:2:b"] "A2" "t2").1
        (Key.check 2025 10 "device:2:b") = 1 := by
  have h := (createChecksForPlan_idempotent [] 2025 10
    ["device:1:a", "device:2:b"] ["device:2:b"] "A1" "A2" "t1" "t2" trivial).2
    "device:2:b" (by decide)
  exact ⟨h.1, h.2⟩

/-- Claim C7 (amended): for every existing check and device —
regardless of the check's current status — completion succeeds and the
stored check's status becomes "completed"; the route carries no guard
on the prior status, so the only transition target is `completed`, but
re-completion of an already completed check is possible. -/
theorem completeCheck_only_transition_is_completed (s : Store) (checkId : Key)
    (c : Check) (d : Device) (b : String) (cm : Option String) (nd : Int)
    (ni : String)
    (hc : kvGet s checkId = some (.check c))
    (hd : kvGet s (Key.device c.deviceId) = some (.device d)) :
    (completeCheck s checkId b cm nd ni).2
      = .ok (completedVersion c b cm ni)
          (successorKey (nextDayOf nd d.plannedFrequency) c.deviceId)
          (yearOfDay (nextDayOf nd d.plannedFrequency))
          (getWeekNumber (nextDayOf nd d.plannedFrequency)) ∧
    (completedVersion c b cm ni).status = "completed" := by
  rw [completeCheck_ok_eq s checkId c d b cm nd ni hc hd]
  exact ⟨rfl, rfl⟩

/-- Claim C7 (counterexample): a check already completed by `E1` is
completed again by `E2`: the route succeeds, re-stamps `completedBy`,
and upserts another pending successor — refuting "mutated exactly
once" and "never completed again". -/
theorem completed_check_recompleted :
    (completedVersion (planCheck 2025 10 "device:1:a" "admin" "t0") "E1" none
        "t1").status = "completed" ∧
    (completeCheck recompletedStore (Key.check 2025 10 "device:1:a") "E2" none
        (daysFromCivil 2025 3 10) "t2").2
      = .ok (completedVersion (completedVersion
            (planCheck 2025 10 "device:1:a" "admin" "t0") "E1" none "t1")
            "E2" none "t2")
          (Key.check 2025 12 "device:1:a") 2025 12 ∧
    (completedVersion (completedVersion
        (planCheck 2025 10 "device:1:a" "admin" "t0") "E1" none "t1")
        "E2" none "t2").completedBy = some "E2" ∧
    (completedVersion (planCheck 2025 10 "device:1:a" "admin" "t0") "E1" none
        "t1").completedBy = some "E1" ∧
    kvGet (completeCheck recompletedStore (Key.check 2025 10 "device:1:a") "E2"
        none (daysFromCivil 2025 3 10) "t2").1 (Key.check 2025 12 "device:1:a")
      = some (.check (successorCheck (nextDayOf (daysFromCivil 2025 3 10) 1)
          "device:1:a" "t2")) := by decide

/-- Witness for C7 (amended): the pending week-10 check completes to
status "completed". -/
theorem completeCheck_only_transition_witness :
    (completeCheck witnessStore (Key.check 2025 10 "device:1:a") "E3" none
        (daysFromCivil 2025 3 10) "t1").2
      = .ok (completedVersion (planCheck 2025 10 "device:1:a" "admin" "t0")
            "E3" none "t1")
          (successorKey (nextDayOf (daysFromCivil 2025 3 10) 1) "device:1:a")
          (yearOfDay (nextDayOf (daysFromCivil 2025 3 10) 1))
          (getWeekNumber (nextDayOf (daysFromCivil 2025 3 10) 1)) := by
  exact (completeCheck_only_transition_is_completed witnessStore
    (Key.check 2025 10 "device:1:a")
    (planCheck 2025 10 "device:1:a" "admin" "t0") sampleDeviceA
    "E3" none (daysFromCivil 2025 3 10) "t1" rfl rfl).1

/-- Claim C8 (amended): the server week function and both client
copies agree on every calendar date. -/
theorem weekNumber_implementations_agree (t : Int) :
    getWeekNumber t = getWeekNumberClient t ∧
    getWeekNumberDeviceChecks t = getWeekNumberClient t :=
  ⟨getWeekNumber_eq_getWeekNumberClient t, rfl⟩

/-- Claim C8 (counterexample): the functions read the local calendar
date, so the same instant (2025-01-05T23:30Z) yields week 1 at UTC but
week 2 at UTC+1 — the computation is not a pure function of the UTC
calendar date. -/
theorem weekNumber_timezone_dependent :
    getWeekNumber (localDay 1736119800000 0) = 1 ∧
    getWeekNumber (localDay 1736119800000 60) = 2 := by decide

/-- Claim C9 (counterexample): with `PREVENT_AUTO_SEED` active, `set`
silently skips a sample user record, so set-then-get does not return
the stored value — `set` is not an unconditional upsert for all
keys. -/
theorem kv_set_not_unconditional :
    KV.set true [] "user:EMP001" ⟨some "EMP001", none, "v"⟩ = [] ∧
    KV.get (KV.set true [] "user:EMP001" ⟨some "EMP001", none, "v"⟩)
        "user:EMP001" = none := by decide

/-- Claim C9 (amended): with the `PREVENT_AUTO_SEED` guard disabled
(the default), set-then-get returns the stored value, set leaves other
keys unchanged, delete-then-get is absent, and deleting an absent key
is a no-op that raises no error. -/
theorem kv_roundtrip (preventAutoSeed : Bool) (t : KV.Table) (key : String)
    (v : KV.Value) (h : preventAutoSeed = false) :
    KV.get (KV.set preventAutoSeed t key v) key = some v ∧
    (∀ k', k' ≠ key → KV.get (KV.set preventAutoSeed t key v) k' = KV.get t k') ∧
    KV.get (KV.del t key) key = none ∧
    (KV.get t key = none → KV.del t key = t) := by
  subst h
  have hset : KV.set false t key v = KV.upsert t key v := by
    simp [KV.set]
  rw [hset]
  exact ⟨KV.get_upsert_self t key v,
    fun k' hk => KV.get_upsert_ne t key k' v hk,
    KV.get_del t key, KV.del_absent t key⟩

/-- Witness for C9 (amended). -/
theorem kv_roundtrip_witness :
    KV.get (KV.set false [] "a" ⟨none, none, "p"⟩) "a" = some ⟨none, none, "p"⟩ ∧
    KV.del ([] : KV.Table) "a" = [] := by
  have h := kv_roundtrip false [] "a" ⟨none, none, "p"⟩ rfl
  exact ⟨h.1, h.2.2.2 rfl⟩

/-- Claim C10 (amended): provided the successor's key differs from the
completed check's own key, a successful completion changes only
`status`, `completedAt`, `completedBy` and `comment` on the check —
`id`, `deviceId`, `week`, `year`, `assignedAt`, `assignedBy` are
preserved verbatim — and only `lastCheckedAt`/`lastCheckedBy` on the
device.  When the keys coincide the final successor upsert overwrites
the completed record (see the counterexample). -/
theorem completeCheck_frame (s : Store) (checkId : Key) (c : Check) (d : Device)
    (b : String) (cm : Option String) (nd : Int) (ni : String)
    (hc : kvGet s checkId = some (.check c))
    (hd : kvGet s (Key.device c.deviceId) = some (.device d))
    (hne : successorKey (nextDayOf nd d.plannedFrequency) c.deviceId ≠ checkId) :
    kvGet (completeCheck s checkId b cm nd ni).1 checkId
        = some (.check (completedVersion c b cm ni)) ∧
    (completedVersion c b cm ni).id = c.id ∧
    (completedVersion c b cm ni).deviceId = c.deviceId ∧
    (completedVersion c b cm ni).week = c.week ∧
    (completedVersion c b cm ni).year = c.year ∧
    (completedVersion c b cm ni).assignedAt = c.assignedAt ∧
    (completedVersion c b cm ni).assignedBy = c.assignedBy ∧
    kvGet (completeCheck s checkId b cm nd ni).1 (Key.device c.deviceId)
        = some (.device (stampedDevice d b ni)) ∧
    (stampedDevice d b ni).id = d.id ∧
    (stampedDevice d b ni).name = d.name ∧
    (stampedDevice d b ni).identificationNumber = d.identificationNumber ∧
    (stampedDevice d b ni).location = d.location ∧
    (stampedDevice d b ni).plannedFrequency = d.plannedFrequency ∧
    (stampedDevice d b ni).planComment = d.planComment ∧
    (stampedDevice d b ni).status = d.status ∧
    (stampedDevice d b ni).createdAt = d.createdAt := by
  have hcd := checkId_ne_deviceKey s checkId c d hc hd
  rw [completeCheck_ok_eq s checkId c d b cm nd ni hc hd]
  refine ⟨?_, rfl, rfl, rfl, rfl, rfl, rfl, ?_, rfl, rfl, rfl, rfl, rfl, rfl, rfl, rfl⟩
  · rw [kvGet_kvSet_ne _ _ _ _ hne.symm, kvGet_kvSet_ne _ _ _ _ hcd]
    exact kvGet_kvSet_self _ _ _
  · rw [kvGet_kvSet_ne _ _ _ _ (by simp [successorKey])]
    exact kvGet_kvSet_self _ _ _

/-- Witness for C10: the completed week-10 check keeps its assigner
and schedule; the device keeps its frequency. -/
theorem completeCheck_frame_witness :
    kvGet (completeCheck witnessStore (Key.check 2025 10 "device:1:a") "E2" none
        (daysFromCivil 2025 3 10) "t1").1 (Key.check 2025 10 "device:1:a")
      = some (.check (completedVersion (planCheck 2025 10 "device:1:a" "admin" "t0")
          "E2" none "t1")) ∧
    (completedVersion (planCheck 2025 10 "device:1:a" "admin" "t0") "E2" none "t1").assignedBy
      = "admin" ∧
    kvGet (completeCheck witnessStore (Key.check 2025 10 "device:1:a") "E2" none
        (daysFromCivil 2025 3 10) "t1").1 (Key.device "device:1:a")
      = some (.device (stampedDevice sampleDeviceA "E2" "t1")) ∧
    (stampedDevice sampleDeviceA "E2" "t1").plannedFrequency = 1 := by
  have h := completeCheck_frame witnessStore (Key.check 2025 10 "device:1:a")
    (planCheck 2025 10 "device:1:a" "admin" "t0") sampleDeviceA
    "E2" none (daysFromCivil 2025 3 10) "t1" rfl rfl (by decide)
  exact ⟨h.1, h.2.2.2.2.2.2.1, h.2.2.2.2.2.2.2.1, by decide⟩

/-- Claim C10 (counterexample): completing the pending check scheduled
at (2025, week 12) on 2025-03-10 with weekly frequency makes the
successor key equal the check's own key; the final upsert overwrites
the completed record with the fresh pending successor, whose
`assignedBy` is "system" (originally "admin") and whose `assignedAt`
is the completion timestamp (originally "t0") — so `assignedAt` and
`assignedBy` are not preserved in this reachable case. -/
theorem successor_overwrites_completed_check :
    successorKey (nextDayOf (daysFromCivil 2025 3 10) 1) "device:1:a"
      = Key.check 2025 12 "device:1:a" ∧
    (planCheck 2025 12 "device:1:a" "admin" "t0").assignedBy = "admin" ∧
    (planCheck 2025 12 "device:1:a" "admin" "t0").assignedAt = "t0" ∧
    kvGet (completeCheck collisionStore (Key.check 2025 12 "device:1:a") "E1"
        none (daysFromCivil 2025 3 10) "t1").1 (Key.check 2025 12 "device:1:a")
      = some (.check (successorCheck (nextDayOf (daysFromCivil 2025 3 10) 1)
          "device:1:a" "t1")) ∧
    (successorCheck (nextDayOf (daysFromCivil 2025 3 10) 1) "device:1:a"
        "t1").assignedBy = "system" ∧
    (successorCheck (nextDayOf (daysFromCivil 2025 3 10) 1) "device:1:a"
        "t1").assignedAt = "t1" ∧
    (successorCheck (nextDayOf (daysFromCivil 2025 3 10) 1) "device:1:a"
        "t1").status = "pending" := by decide

end EGA
